import Mathlib

/-!
Shallow embedding of the core game logic of the soda-sorting puzzle
("guestGame").  The definitions below are translated from the source:
`src/constants.ts` (catalog), the App component in
`src/components/HistoryRow.tsx` (state, executeMove, input handlers,
checkSolution, initGame, level handlers, sortedRecords) and the types
module.  JS arrays of `BrandId | null` become `List (Option BrandId)`;
JS numbers used as counters/indices/timestamps become `Nat`; the
`Math.random()`-driven `Array.prototype.sort` in `initGame` is modelled
by `List.mergeSort` under an arbitrary boolean relation supplied as a
parameter (ECMAScript guarantees the result of sort is a permutation of
the input for any comparator, which is exactly what `mergeSort` gives
for any relation).  React state setters become functional record
updates; `setTimeout` contents in `checkSolution` are folded into the
single resulting state, since they always run before the next user
event is processed.
-/

namespace SodaSort

/-- The brand identifiers, from the union type in the types module. -/
inductive BrandId where
  | cola | lime | orange | grape | water | energy | peach | coffee | mint | berry
deriving DecidableEq, Repr

/-- A catalog entry, from the SodaBrand interface. -/
structure SodaBrand where
  id : BrandId
  name : String
  color : String
  accent : String
  textColor : String
  icon : String
deriving DecidableEq, Repr

/-- The static catalog BRANDS from src/constants.ts. -/
def BRANDS : List SodaBrand :=
  [ { id := BrandId.cola, name := "经典可乐", color := "#e11d48", accent := "#f43f5e",
      textColor := "#ffffff", icon := "可乐" },
    { id := BrandId.lime, name := "激爽青柠", color := "#16a34a", accent := "#22c55e",
      textColor := "#ffffff", icon := "青柠" },
    { id := BrandId.orange, name := "阳光甜橙", color := "#ea580c", accent := "#f97316",
      textColor := "#ffffff", icon := "甜橙" },
    { id := BrandId.grape, name := "皇家葡萄", color := "#7e22ce", accent := "#9333ea",
      textColor := "#ffffff", icon := "葡萄" },
    { id := BrandId.water, name := "纯净矿泉", color := "#0284c7", accent := "#0ea5e9",
      textColor := "#ffffff", icon := "矿泉" },
    { id := BrandId.energy, name := "闪电能量", color := "#eab308", accent := "#facc15",
      textColor := "#000000", icon := "能量" },
    { id := BrandId.peach, name := "白桃乌龙", color := "#f472b6", accent := "#ec4899",
      textColor := "#ffffff", icon := "白桃" },
    { id := BrandId.coffee, name := "醇香拿铁", color := "#78350f", accent := "#92400e",
      textColor := "#ffffff", icon := "拿铁" },
    { id := BrandId.mint, name := "冰极薄荷", color := "#0d9488", accent := "#14b8a6",
      textColor := "#ffffff", icon := "薄荷" },
    { id := BrandId.berry, name := "蓝莓气泡", color := "#4338ca", accent := "#6366f1",
      textColor := "#ffffff", icon := "蓝莓" } ]

/-- DEFAULT_GAME_SIZE from src/constants.ts. -/
def DEFAULT_GAME_SIZE : Nat := 5

/-- GameStatus union type ('playing' | 'won' | 'lost'). -/
inductive GameStatus where
  | playing | won | lost
deriving DecidableEq, Repr

/-- HistoryEntry from the types module; arrangement is saved from a
fully-filled board, so cells are plain brand ids. -/
structure HistoryEntry where
  id : String
  arrangement : List BrandId
  correctCount : Nat
  timestamp : Nat
deriving DecidableEq, Repr

/-- GameRecord from the types module. -/
structure GameRecord where
  id : String
  timestamp : Nat
  attempts : Nat
  durationSeconds : Nat
  difficulty : Nat
  targetSequence : Option (List BrandId)
deriving DecidableEq, Repr

/-- The React state of the App component (game-logic fields only;
modal visibility flags are pure presentation and carry no game data). -/
structure GameState where
  gameSize : Nat
  targetSequence : List BrandId
  currentSlots : List (Option BrandId)
  history : List HistoryEntry
  gameStatus : GameStatus
  records : List GameRecord
  maxUnlockedLevel : Nat
  startTime : Nat
  elapsedTime : Nat
deriving DecidableEq, Repr

/-- Derived state: activeBrands = BRANDS.slice(0, gameSize). -/
def activeBrands (st : GameState) : List SodaBrand :=
  BRANDS.take st.gameSize

/-- Derived state: availableInventory = activeBrands.filter(brand =>
!currentSlots.includes(brand.id)); a null cell never equals a brand id,
so includes(brand.id) is membership of `some brand.id`. -/
def availableInventory (st : GameState) : List SodaBrand :=
  (activeBrands st).filter (fun brand => !decide (some brand.id ∈ st.currentSlots))

/-- The 'inventory' | 'slot' union used for drag sources and targets. -/
inductive DragSource where
  | inventory | slot
deriving DecidableEq, Repr

/-- executeMove: the single board-mutation function.  Mirrors the nested
conditionals of the source: case 1 fires when the target is a slot and
targetIndex is a number, case 2 when the target is the inventory; every
other combination leaves the board as is.  `existingAtTarget` is read
before either write, as in the source.  List.set matches the JS
in-range array assignment; the adapters only ever deliver in-range
indices (the rendered slots carry indices 0..gameSize-1). -/
def executeMove (st : GameState) (source : DragSource) (sourceBrandId : BrandId)
    (sourceIndex : Option Nat) (targetType : DragSource) (targetIndex : Option Nat) :
    GameState :=
  let slots := st.currentSlots
  let newSlots :=
    match targetType, targetIndex with
    | DragSource.slot, some tIdx =>
      match source, sourceIndex with
      | DragSource.inventory, _ => slots.set tIdx (some sourceBrandId)
      | DragSource.slot, some sIdx =>
        let existingAtTarget := slots.getD tIdx none
        (slots.set tIdx (some sourceBrandId)).set sIdx existingAtTarget
      | DragSource.slot, none => slots
    | DragSource.slot, none => slots
    | DragSource.inventory, _ =>
      match source, sourceIndex with
      | DragSource.slot, some sIdx => slots.set sIdx none
      | _, _ => slots
  { st with currentSlots := newSlots }

/-- handleDropOnSlot: pointer-drag drop on slot targetIndex; no-op
unless the game status is playing. -/
def handleDropOnSlot (st : GameState) (source : DragSource) (brandId : BrandId)
    (sourceIndex : Option Nat) (targetIndex : Nat) : GameState :=
  if st.gameStatus ≠ GameStatus.playing then st
  else executeMove st source brandId sourceIndex DragSource.slot (some targetIndex)

/-- handleDropOnInventory: pointer-drag drop on the inventory zone;
no-op unless the game status is playing. -/
def handleDropOnInventory (st : GameState) (source : DragSource) (brandId : BrandId)
    (sourceIndex : Option Nat) : GameState :=
  if st.gameStatus ≠ GameStatus.playing then st
  else executeMove st source brandId sourceIndex DragSource.inventory none

/-- The touchDragItem state entry of the App component. -/
structure TouchDragItem where
  source : DragSource
  brandId : BrandId
  index : Option Nat
deriving DecidableEq, Repr

/-- The drop zone resolved from elementFromPoint at touch release:
either a rendered slot (with its data-slot-index) or the inventory
zone.  A release over neither is passed as `none`. -/
inductive TouchDropZone where
  | slot (index : Nat)
  | inventory
deriving DecidableEq, Repr

/-- handleTouchStart: arms the touch drag, but only while the game
status is playing; otherwise it returns early and the drag state is
left as it was. -/
def handleTouchStart (st : GameState) (touchDragItem : Option TouchDragItem)
    (source : DragSource) (brandId : BrandId) (index : Option Nat) :
    Option TouchDragItem :=
  if st.gameStatus ≠ GameStatus.playing then touchDragItem
  else some { source := source, brandId := brandId, index := index }

/-- handleTouchEnd: if a drag is armed, clears the drag state and, when
the release point resolves to a slot or the inventory zone, calls
executeMove.  Note the source performs no game-status check here. -/
def handleTouchEnd (st : GameState) (touchDragItem : Option TouchDragItem)
    (zone : Option TouchDropZone) : GameState × Option TouchDragItem :=
  match touchDragItem with
  | none => (st, touchDragItem)
  | some item =>
    match zone with
    | some (TouchDropZone.slot tIdx) =>
      (executeMove st item.source item.brandId item.index DragSource.slot (some tIdx), none)
    | some TouchDropZone.inventory =>
      (executeMove st item.source item.brandId item.index DragSource.inventory none, none)
    | none => (st, none)

/-- handleInventoryClick: click fallback, places the item into the
first empty slot if one exists. -/
def handleInventoryClick (brandId : BrandId) (st : GameState) : GameState :=
  if st.gameStatus ≠ GameStatus.playing then st
  else
    match st.currentSlots.findIdx? (fun s => s.isNone) with
    | some firstEmptyIndex =>
      { st with currentSlots := st.currentSlots.set firstEmptyIndex (some brandId) }
    | none => st

/-- handleSlotClick: click fallback, clears slot index if occupied. -/
def handleSlotClick (index : Nat) (st : GameState) : GameState :=
  if st.gameStatus ≠ GameStatus.playing then st
  else if st.currentSlots.getD index none ≠ none then
    { st with currentSlots := st.currentSlots.set index none }
  else st

/-- The scorer loop of checkSolution: correctCount is accumulated over
the guess, comparing each cell with the target at the same index (a
position beyond the target never matches, exactly as the JS comparison
with undefined is false). -/
def countMatches : List BrandId → List BrandId → Nat
  | b :: bs, t :: ts => (if b = t then 1 else 0) + countMatches bs ts
  | _, _ => 0

/-- checkSolution: rejects an incomplete board, otherwise scores the
board, prepends the new history entry, and on a full match applies the
unlock rule, marks the game won and appends the game record.  The
status flip and record append happen inside a 500 ms setTimeout in the
source; they are folded into the one resulting state because they
always complete before the next user event in the single-threaded event
model.  Date.now() is passed in as `now`. -/
def checkSolution (now : Nat) (st : GameState) : GameState :=
  if none ∈ st.currentSlots then st
  else
    let currentGuess : List BrandId := st.currentSlots.filterMap id
    let correctCount := countMatches currentGuess st.targetSequence
    let newEntry : HistoryEntry :=
      { id := toString now, arrangement := currentGuess,
        correctCount := correctCount, timestamp := now }
    let newHistory := newEntry :: st.history
    if correctCount = st.gameSize then
      let newMax :=
        if st.gameSize = st.maxUnlockedLevel ∧ st.gameSize < BRANDS.length then
          st.gameSize + 1
        else st.maxUnlockedLevel
      let newRecord : GameRecord :=
        { id := toString now, timestamp := now, attempts := newHistory.length,
          durationSeconds := st.elapsedTime, difficulty := st.gameSize,
          targetSequence := some st.targetSequence }
      { st with history := newHistory, maxUnlockedLevel := newMax,
                gameStatus := GameStatus.won,
                records := st.records ++ [newRecord] }
    else
      { st with history := newHistory }

/-- initGame: clamps the size to the catalog, shuffles the first
safeSize catalog entries (the random comparator passed to sort is
modelled as the arbitrary relation `rand`), stores their ids as the
target, resets the board to all-null, clears history, sets status to
playing and resets the timer.  It does not touch gameSize,
maxUnlockedLevel or records. -/
def initGame (rand : SodaBrand → SodaBrand → Bool) (size : Nat) (now : Nat)
    (st : GameState) : GameState :=
  let safeSize := min size BRANDS.length
  let currentActiveBrands := BRANDS.take safeSize
  let shuffled := currentActiveBrands.mergeSort rand
  { st with
      targetSequence := shuffled.map (fun b => b.id),
      currentSlots := List.replicate safeSize none,
      history := [],
      gameStatus := GameStatus.playing,
      startTime := now,
      elapsedTime := 0 }

/-- handleNextLevel: advance to gameSize+1 when below the catalog size
(setGameSize followed by initGame at the new size). -/
def handleNextLevel (rand : SodaBrand → SodaBrand → Bool) (now : Nat)
    (st : GameState) : GameState :=
  if st.gameSize < BRANDS.length then
    let newSize := st.gameSize + 1
    initGame rand newSize now { st with gameSize := newSize }
  else st

/-- handleRetryLevel: restart at the current size. -/
def handleRetryLevel (rand : SodaBrand → SodaBrand → Bool) (now : Nat)
    (st : GameState) : GameState :=
  initGame rand st.gameSize now st

/-- handleSelectLevel: switch to a level only if it is unlocked. -/
def handleSelectLevel (rand : SodaBrand → SodaBrand → Bool) (now : Nat)
    (level : Nat) (st : GameState) : GameState :=
  if level ≤ st.maxUnlockedLevel then
    initGame rand level now { st with gameSize := level }
  else st

/-- The comparator of sortedRecords, turned into a boolean "a sorts no
later than b": the JS comparator returns b.difficulty - a.difficulty
when difficulties differ, else a.attempts - b.attempts when attempts
differ, else a.durationSeconds - b.durationSeconds, and a comes no
later than b exactly when that value is ≤ 0. -/
def recordLe (a b : GameRecord) : Bool :=
  if a.difficulty ≠ b.difficulty then decide (b.difficulty < a.difficulty)
  else if a.attempts ≠ b.attempts then decide (a.attempts < b.attempts)
  else decide (a.durationSeconds ≤ b.durationSeconds)

/-- sortedRecords = [...records].sort(comparator): a sorted copy; the
spread copy means the stored list itself is untouched. -/
def sortedRecords (records : List GameRecord) : List GameRecord :=
  records.mergeSort recordLe

/-- The attempt number printed by the history panel for the row at
position idx of the stored log: history.length - 1 - idx (the rows
themselves are rendered in stored order). -/
def displayedAttemptNumber (history : List HistoryEntry) (idx : Nat) : Nat :=
  history.length - 1 - idx

/-- The ids of the items currently in the derived inventory. -/
def inventoryIds (st : GameState) : List BrandId :=
  (availableInventory st).map (fun b => b.id)

/-- A move descriptor, bundling executeMove's arguments. -/
structure MoveDesc where
  source : DragSource
  brandId : BrandId
  sourceIndex : Option Nat
  targetType : DragSource
  targetIndex : Option Nat
deriving DecidableEq, Repr

/-- executeMove applied to a bundled move descriptor. -/
def execMoveDesc (st : GameState) (m : MoveDesc) : GameState :=
  executeMove st m.source m.brandId m.sourceIndex m.targetType m.targetIndex

/-- A move whose source data is taken from the current board or the
derived inventory and whose slot target is a rendered slot, exactly as
the input adapters supply it: an inventory source names an item not on
the board; a slot source names the occupant of its slot; a slot target
carries an in-range index. -/
def wfMove (st : GameState) (m : MoveDesc) : Bool :=
  (match m.source with
    | DragSource.inventory => !decide (some m.brandId ∈ st.currentSlots)
    | DragSource.slot =>
      match m.sourceIndex with
      | some i => decide (st.currentSlots.getD i none = some m.brandId)
      | none => false) &&
  (match m.targetType with
    | DragSource.slot =>
      match m.targetIndex with
      | some j => decide (j < st.currentSlots.length)
      | none => false
    | DragSource.inventory => true)

/-- A sequence of moves, each well-formed at the state it acts on. -/
def wfMoves : GameState → List MoveDesc → Bool
  | _, [] => true
  | st, m :: ms => wfMove st m && wfMoves (execMoveDesc st m) ms

/-- The board after a sequence of moves. -/
def applyMoves : GameState → List MoveDesc → GameState
  | st, [] => st
  | st, m :: ms => applyMoves (execMoveDesc st m) ms

/-- The in-game operations: every state-mutating entry point of the
component (moves through every path, confirm, and the lifecycle
actions). -/
inductive Op where
  | move (source : DragSource) (brandId : BrandId) (sourceIndex : Option Nat)
      (targetType : DragSource) (targetIndex : Option Nat)
  | dropOnSlot (source : DragSource) (brandId : BrandId) (sourceIndex : Option Nat)
      (targetIndex : Nat)
  | dropOnInventory (source : DragSource) (brandId : BrandId) (sourceIndex : Option Nat)
  | touchEnd (item : Option TouchDragItem) (zone : Option TouchDropZone)
  | confirm (now : Nat)
  | init (rand : SodaBrand → SodaBrand → Bool) (size : Nat) (now : Nat)
  | nextLevel (rand : SodaBrand → SodaBrand → Bool) (now : Nat)
  | retryLevel (rand : SodaBrand → SodaBrand → Bool) (now : Nat)
  | selectLevel (rand : SodaBrand → SodaBrand → Bool) (now : Nat) (level : Nat)
  | inventoryClick (brandId : BrandId)
  | slotClick (index : Nat)

/-- Dispatch of an operation to the corresponding source function. -/
def applyOp : Op → GameState → GameState
  | Op.move s b si t ti, st => executeMove st s b si t ti
  | Op.dropOnSlot s b si ti, st => handleDropOnSlot st s b si ti
  | Op.dropOnInventory s b si, st => handleDropOnInventory st s b si
  | Op.touchEnd item zone, st => (handleTouchEnd st item zone).1
  | Op.confirm now, st => checkSolution now st
  | Op.init rand size now, st => initGame rand size now st
  | Op.nextLevel rand now, st => handleNextLevel rand now st
  | Op.retryLevel rand now, st => handleRetryLevel rand now st
  | Op.selectLevel rand now level, st => handleSelectLevel rand now level st
  | Op.inventoryClick b, st => handleInventoryClick b st
  | Op.slotClick i, st => handleSlotClick i st

/-- A sequence of operations applied in order. -/
def applyOps (ops : List Op) (st : GameState) : GameState :=
  ops.foldl (fun s op => applyOp op s) st

/-- Sample game state used to instantiate hypotheses of claim theorems. -/
def demoState : GameState :=
  { gameSize := 2, targetSequence := [BrandId.cola, BrandId.lime],
    currentSlots := [some BrandId.lime, some BrandId.cola],
    history := [], gameStatus := GameStatus.playing, records := [],
    maxUnlockedLevel := 2, startTime := 0, elapsedTime := 3 }

/-- Sample records used to instantiate C7. -/
def demoRecordA : GameRecord :=
  { id := "1", timestamp := 1, attempts := 4, durationSeconds := 30, difficulty := 5,
    targetSequence := none }

/-- Second sample record, harder difficulty. -/
def demoRecordB : GameRecord :=
  { id := "2", timestamp := 2, attempts := 7, durationSeconds := 60, difficulty := 6,
    targetSequence := none }

/-- Sample all-empty starting board. -/
def demoEmptyState : GameState :=
  { demoState with currentSlots := [none, none] }

/-- Sample adapter-shaped move sequence from the empty board: place
cola into slot 0 from the inventory, then drag it from slot 0 onto
slot 1. -/
def demoMoves : List MoveDesc :=
  [ { source := DragSource.inventory, brandId := BrandId.cola, sourceIndex := none,
      targetType := DragSource.slot, targetIndex := some 0 },
    { source := DragSource.slot, brandId := BrandId.cola, sourceIndex := some 0,
      targetType := DragSource.slot, targetIndex := some 1 } ]

/-- A sample prior history entry. -/
def demoHistoryEntry : HistoryEntry :=
  { id := "0", arrangement := [BrandId.lime, BrandId.cola], correctCount := 0,
    timestamp := 0 }

/-- demoState with one recorded attempt already in the log. -/
def demoStateWithHistory : GameState :=
  { demoState with history := [demoHistoryEntry] }

/-- A one-slot game about to be won (board matches the target). -/
def demoOneState : GameState :=
  { demoState with
      gameSize := 1, targetSequence := [BrandId.cola],
      currentSlots := [some BrandId.cola], maxUnlockedLevel := 5 }

/-- The touch-drag item armed by touching the can in slot 0. -/
def touchDemoItem : TouchDragItem :=
  { source := DragSource.slot, brandId := BrandId.cola, index := some 0 }

/-! ### Helper lemmas -/

lemma countMatches_eq_countP : ∀ (B T : List BrandId), B.length = T.length →
    countMatches B T =
      (List.range T.length).countP
        (fun i => decide (B.getD i BrandId.cola = T.getD i BrandId.cola))
  | [], [], _ => by simp [countMatches]
  | b :: bs, t :: ts, h => by
    have hl : bs.length = ts.length := by simpa using h
    have ih := countMatches_eq_countP bs ts hl
    simp only [countMatches, List.length_cons, List.range_succ_eq_map,
      List.countP_cons, List.countP_map, List.getD_cons_zero, List.getD_cons_succ]
    have hcomp :
        ((fun i => decide ((b :: bs).getD i BrandId.cola = (t :: ts).getD i BrandId.cola)) ∘
          Nat.succ) =
        (fun i => decide (bs.getD i BrandId.cola = ts.getD i BrandId.cola)) := by
      funext i
      simp
    rw [hcomp, ← ih]
    by_cases hbt : b = t <;> simp [hbt] <;> omega

lemma countMatches_self : ∀ (T : List BrandId), countMatches T T = T.length
  | [] => by simp [countMatches]
  | t :: ts => by
    simp [countMatches, countMatches_self ts]
    omega

/-! ### Claim theorems -/

/-- C1: the scorer used at confirm time computes the match count as the
number of positions i with B[i] == T[i]; Score(T,T) = len(T); a board
differing from the target at every position scores 0. -/
theorem scorer_counts_matching_positions (B T : List BrandId) (h : B.length = T.length) :
    countMatches B T =
      (List.range T.length).countP
        (fun i => decide (B.getD i BrandId.cola = T.getD i BrandId.cola)) ∧
    countMatches T T = T.length ∧
    ((∀ i, i < T.length → B.getD i BrandId.cola ≠ T.getD i BrandId.cola) →
      countMatches B T = 0) := by
  refine ⟨countMatches_eq_countP B T h, countMatches_self T, ?_⟩
  intro hdiff
  rw [countMatches_eq_countP B T h]
  simp only [List.countP_eq_zero]
  intro i hi
  simp only [List.mem_range] at hi
  have hne := hdiff i hi
  simp only [List.getD_eq_getElem?_getD] at hne
  simp [hne]

/-- Witness for C1 at concrete boards. -/
theorem scorer_counts_matching_positions_witness :
    countMatches [BrandId.cola, BrandId.lime] [BrandId.lime, BrandId.cola] = 0 ∧
    countMatches [BrandId.lime, BrandId.cola] [BrandId.lime, BrandId.cola] = 2 := by
  refine ⟨?_, ?_⟩
  · exact (scorer_counts_matching_positions [BrandId.cola, BrandId.lime]
      [BrandId.lime, BrandId.cola] (by decide)).2.2 (by decide)
  · exact (scorer_counts_matching_positions [BrandId.lime, BrandId.cola]
      [BrandId.lime, BrandId.cola] (by decide)).2.1

/-- C8: a confirm request on a board with an empty slot has no effect:
the whole state (history, status, records, progression) is returned
unchanged and the scorer never runs. -/
theorem checkSolution_incomplete_noop (now : Nat) (st : GameState)
    (h : none ∈ st.currentSlots) : checkSolution now st = st := by
  unfold checkSolution
  simp [h]

/-- Witness for C8 at a concrete incomplete board. -/
theorem checkSolution_incomplete_noop_witness :
    none ∈ ({ demoState with currentSlots := [none, some BrandId.cola] } : GameState).currentSlots ∧
    checkSolution 9 { demoState with currentSlots := [none, some BrandId.cola] } =
      { demoState with currentSlots := [none, some BrandId.cola] } :=
  ⟨by decide, checkSolution_incomplete_noop 9 _ (by decide)⟩

/-- C10: executeMove only touches the slot board; target sequence,
history, status, records, difficulty and max-unlocked level are all
unchanged by any single move. -/
theorem executeMove_frame_effect (st : GameState) (source : DragSource) (brandId : BrandId)
    (sourceIndex : Option Nat) (targetType : DragSource) (targetIndex : Option Nat) :
    (executeMove st source brandId sourceIndex targetType targetIndex).targetSequence =
      st.targetSequence ∧
    (executeMove st source brandId sourceIndex targetType targetIndex).history = st.history ∧
    (executeMove st source brandId sourceIndex targetType targetIndex).gameStatus =
      st.gameStatus ∧
    (executeMove st source brandId sourceIndex targetType targetIndex).records = st.records ∧
    (executeMove st source brandId sourceIndex targetType targetIndex).gameSize = st.gameSize ∧
    (executeMove st source brandId sourceIndex targetType targetIndex).maxUnlockedLevel =
      st.maxUnlockedLevel := by
  unfold executeMove
  cases targetType <;> cases targetIndex <;> cases source <;> cases sourceIndex <;> simp

/-- C4: the target produced at game start is a permutation of the ids
of the first n catalog items (n clamped to the catalog length), each
exactly once, never with repeats or omissions. -/
theorem sequence_generator_permutation (rand : SodaBrand → SodaBrand → Bool)
    (size now : Nat) (st : GameState) :
    (initGame rand size now st).targetSequence.Perm
      ((BRANDS.take size).map (fun b => b.id)) ∧
    (initGame rand size now st).targetSequence.length = min size BRANDS.length ∧
    ((BRANDS.take size).map (fun b => b.id)).Nodup := by
  have hB : BRANDS.length = 10 := rfl
  have htake : BRANDS.take (min size BRANDS.length) = BRANDS.take size := by
    rcases Nat.le_total size BRANDS.length with h | h
    · rw [Nat.min_eq_left h]
    · rw [Nat.min_eq_right h, List.take_of_length_le h, List.take_of_length_le (Nat.le_refl _)]
  refine ⟨?_, ?_, ?_⟩
  · have hgoal : (initGame rand size now st).targetSequence =
        List.map (fun b => b.id) ((BRANDS.take (min size BRANDS.length)).mergeSort rand) := rfl
    rw [hgoal, htake]
    exact (List.mergeSort_perm (BRANDS.take size) rand).map (fun b => b.id)
  · simp [initGame, List.length_take]
  · rw [List.map_take]
    have hnd : (BRANDS.map (fun b => b.id)).Nodup := by decide
    exact hnd.sublist (List.take_sublist _ _)

lemma recordLe_total (a b : GameRecord) : (recordLe a b || recordLe b a) = true := by
  unfold recordLe
  split_ifs <;> simp_all <;> omega

lemma recordLe_trans (a b c : GameRecord) :
    recordLe a b = true → recordLe b c = true → recordLe a c = true := by
  unfold recordLe
  split_ifs <;> simp_all <;> omega

/-- C7: the records sort view is a permutation of the stored records,
pairwise ordered by the comparator order recordLe, whose meaning is:
difficulty descending, then attempts ascending, then duration
ascending.  It is computed on a spread copy, so the stored list itself
(kept in insertion/append order) is untouched. -/
theorem records_sort_view (recs : List GameRecord) :
    (sortedRecords recs).Perm recs ∧
    List.Pairwise (fun a b => recordLe a b = true) (sortedRecords recs) ∧
    (∀ a b : GameRecord, recordLe a b = true ↔
      (b.difficulty < a.difficulty ∨
        (a.difficulty = b.difficulty ∧
          (a.attempts < b.attempts ∨
            (a.attempts = b.attempts ∧ a.durationSeconds ≤ b.durationSeconds))))) := by
  refine ⟨List.mergeSort_perm recs recordLe, ?_, ?_⟩
  · exact List.sorted_mergeSort
      (fun x y z hxy hyz => recordLe_trans x y z hxy hyz)
      (fun x y => recordLe_total x y) recs
  · intro a b
    unfold recordLe
    split_ifs <;> simp_all <;> omega

/-- Witness for C7 at a concrete records list. -/
theorem records_sort_view_witness :
    (sortedRecords [demoRecordA, demoRecordB]).Perm [demoRecordA, demoRecordB] ∧
    (recordLe demoRecordB demoRecordA = true ↔
      (demoRecordA.difficulty < demoRecordB.difficulty ∨
        (demoRecordB.difficulty = demoRecordA.difficulty ∧
          (demoRecordB.attempts < demoRecordA.attempts ∨
            (demoRecordB.attempts = demoRecordA.attempts ∧
              demoRecordB.durationSeconds ≤ demoRecordA.durationSeconds))))) :=
  ⟨(records_sort_view [demoRecordA, demoRecordB]).1,
   (records_sort_view [demoRecordA, demoRecordB]).2.2 demoRecordB demoRecordA⟩

lemma executeMove_maxUnlocked (st : GameState) (s : DragSource) (b : BrandId)
    (si : Option Nat) (t : DragSource) (ti : Option Nat) :
    (executeMove st s b si t ti).maxUnlockedLevel = st.maxUnlockedLevel := by
  unfold executeMove
  cases t <;> cases ti <;> cases s <;> cases si <;> rfl

lemma handleDropOnSlot_maxUnlocked (st : GameState) (s : DragSource) (b : BrandId)
    (si : Option Nat) (ti : Nat) :
    (handleDropOnSlot st s b si ti).maxUnlockedLevel = st.maxUnlockedLevel := by
  unfold handleDropOnSlot
  split
  · rfl
  · exact executeMove_maxUnlocked st s b si DragSource.slot (some ti)

lemma handleDropOnInventory_maxUnlocked (st : GameState) (s : DragSource) (b : BrandId)
    (si : Option Nat) :
    (handleDropOnInventory st s b si).maxUnlockedLevel = st.maxUnlockedLevel := by
  unfold handleDropOnInventory
  split
  · rfl
  · exact executeMove_maxUnlocked st s b si DragSource.inventory none

lemma handleTouchEnd_maxUnlocked (st : GameState) (item : Option TouchDragItem)
    (zone : Option TouchDropZone) :
    (handleTouchEnd st item zone).1.maxUnlockedLevel = st.maxUnlockedLevel := by
  cases item with
  | none => rfl
  | some it =>
    cases zone with
    | none => rfl
    | some z =>
      cases z with
      | slot j =>
        exact executeMove_maxUnlocked st it.source it.brandId it.index DragSource.slot (some j)
      | inventory =>
        exact executeMove_maxUnlocked st it.source it.brandId it.index DragSource.inventory none

lemma checkSolution_maxUnlocked_le (now : Nat) (st : GameState) :
    st.maxUnlockedLevel ≤ (checkSolution now st).maxUnlockedLevel := by
  unfold checkSolution
  by_cases h1 : none ∈ st.currentSlots
  · simp [h1]
  · by_cases h2 :
      countMatches (st.currentSlots.filterMap id) st.targetSequence = st.gameSize
    · by_cases h3 : st.gameSize = st.maxUnlockedLevel ∧ st.gameSize < BRANDS.length
      · have h4 : st.maxUnlockedLevel < BRANDS.length := h3.1 ▸ h3.2
        simp [h1, h2, h3.1, h4]
      · simp [h1, h2, h3]
    · simp [h1, h2]

lemma handleInventoryClick_maxUnlocked (b : BrandId) (st : GameState) :
    (handleInventoryClick b st).maxUnlockedLevel = st.maxUnlockedLevel := by
  unfold handleInventoryClick
  split
  · rfl
  · split <;> rfl

lemma handleSlotClick_maxUnlocked (i : Nat) (st : GameState) :
    (handleSlotClick i st).maxUnlockedLevel = st.maxUnlockedLevel := by
  unfold handleSlotClick
  split
  · rfl
  · split <;> rfl

lemma applyOp_maxUnlocked_mono (op : Op) (st : GameState) :
    st.maxUnlockedLevel ≤ (applyOp op st).maxUnlockedLevel := by
  cases op with
  | move s b si t ti => exact Nat.le_of_eq (executeMove_maxUnlocked st s b si t ti).symm
  | dropOnSlot s b si ti => exact Nat.le_of_eq (handleDropOnSlot_maxUnlocked st s b si ti).symm
  | dropOnInventory s b si =>
    exact Nat.le_of_eq (handleDropOnInventory_maxUnlocked st s b si).symm
  | touchEnd item zone => exact Nat.le_of_eq (handleTouchEnd_maxUnlocked st item zone).symm
  | confirm now => exact checkSolution_maxUnlocked_le now st
  | init rand size now => exact Nat.le_refl _
  | nextLevel rand now =>
    have h : (handleNextLevel rand now st).maxUnlockedLevel = st.maxUnlockedLevel := by
      unfold handleNextLevel
      split <;> rfl
    exact Nat.le_of_eq h.symm
  | retryLevel rand now => exact Nat.le_refl _
  | selectLevel rand now level =>
    have h : (handleSelectLevel rand now level st).maxUnlockedLevel = st.maxUnlockedLevel := by
      unfold handleSelectLevel
      split <;> rfl
    exact Nat.le_of_eq h.symm
  | inventoryClick b => exact Nat.le_of_eq (handleInventoryClick_maxUnlocked b st).symm
  | slotClick i => exact Nat.le_of_eq (handleSlotClick_maxUnlocked i st).symm

lemma applyOps_maxUnlocked_mono (ops : List Op) :
    ∀ st : GameState, st.maxUnlockedLevel ≤ (applyOps ops st).maxUnlockedLevel := by
  induction ops with
  | nil => intro st; exact Nat.le_refl _
  | cons op rest ih =>
    intro st
    have h1 := applyOp_maxUnlocked_mono op st
    have h2 := ih (applyOp op st)
    simp only [applyOps, List.foldl_cons] at h2 ⊢
    exact Nat.le_trans h1 h2

/-- C5: the max-unlocked level never decreases across any sequence of
in-game operations, and a win (confirm on a full board matching the
target) bumps it by exactly 1 precisely when the difficulty equals the
current max-unlocked level and that level is below the catalog size;
any other win leaves it unchanged. -/
theorem unlock_monotone_and_win_step :
    (∀ (ops : List Op) (st : GameState),
        st.maxUnlockedLevel ≤ (applyOps ops st).maxUnlockedLevel) ∧
    (∀ (now : Nat) (st : GameState),
        ¬ none ∈ st.currentSlots →
        countMatches (st.currentSlots.filterMap id) st.targetSequence = st.gameSize →
        ((st.gameSize = st.maxUnlockedLevel ∧ st.gameSize < BRANDS.length →
            (checkSolution now st).maxUnlockedLevel = st.maxUnlockedLevel + 1) ∧
          (¬ (st.gameSize = st.maxUnlockedLevel ∧ st.gameSize < BRANDS.length) →
            (checkSolution now st).maxUnlockedLevel = st.maxUnlockedLevel))) := by
  refine ⟨fun ops st => applyOps_maxUnlocked_mono ops st, ?_⟩
  intro now st h1 h2
  constructor
  · intro h3
    unfold checkSolution
    simp [h1, h2, h3]
    omega
  · intro h3
    unfold checkSolution
    simp [h1, h2, h3]

/-- Witness for C5: a concrete win at the frontier bumps the level to 3. -/
theorem unlock_monotone_and_win_step_witness :
    demoState.maxUnlockedLevel ≤ (applyOps [Op.confirm 5] demoState).maxUnlockedLevel ∧
    (checkSolution 5
      { demoState with currentSlots := [some BrandId.cola, some BrandId.lime] }).maxUnlockedLevel =
      3 := by
  constructor
  · exact unlock_monotone_and_win_step.1 [Op.confirm 5] demoState
  · exact (unlock_monotone_and_win_step.2 5
      { demoState with currentSlots := [some BrandId.cola, some BrandId.lime] }
      (by decide) (by decide)).1 (by decide)

lemma count_set_add {α : Type} [BEq α] [LawfulBEq α] [DecidableEq α] :
    ∀ (l : List α) (j : Nat) (a y : α) (hj : j < l.length),
      (l.set j a).count y + (if l[j] = y then 1 else 0) =
        l.count y + (if a = y then 1 else 0)
  | [], j, _, _, hj => by simp at hj
  | x :: xs, 0, a, y, _ => by
    simp only [List.set_cons_zero, List.getElem_cons_zero, List.count_cons]
    by_cases h1 : x = y <;> by_cases h2 : a = y <;> simp [h1, h2] <;> omega
  | x :: xs, j + 1, a, y, hj => by
    have hj' : j < xs.length := by simpa using hj
    have ih := count_set_add xs j a y hj'
    simp only [List.set_cons_succ, List.getElem_cons_succ, List.count_cons, beq_iff_eq]
    omega

lemma getD_none_eq_getElem {l : List (Option BrandId)} {i : Nat} (h : i < l.length) :
    l.getD i none = l[i] := by
  simp [List.getD_eq_getElem?_getD, List.getElem?_eq_getElem h]

lemma lt_of_getD_eq_some {l : List (Option BrandId)} {i : Nat} {x : BrandId}
    (h : l.getD i none = some x) : i < l.length := by
  by_contra hge
  rw [List.getD_eq_getElem?_getD, List.getElem?_eq_none (Nat.le_of_not_lt hge)] at h
  simp at h

lemma getD_none_of_le {l : List (Option BrandId)} {k : Nat} (h : l.length ≤ k) :
    l.getD k none = none := by
  rw [List.getD_eq_getElem?_getD, List.getElem?_eq_none h]
  rfl

lemma mem_inventoryIds_of (st : GameState) (y : BrandId)
    (hact : y ∈ (activeBrands st).map (fun b => b.id))
    (hnot : ¬ some y ∈ st.currentSlots) : y ∈ inventoryIds st := by
  obtain ⟨brand, hbrand, hid⟩ := List.mem_map.mp hact
  refine List.mem_map.mpr ⟨brand, ?_, hid⟩
  refine List.mem_filter.mpr ⟨hbrand, ?_⟩
  subst hid
  simp [availableInventory, hnot]

/-- C2: executeMove implements the spec case table when the game is
playing: inventory to slot overwrites the slot (the displaced occupant
leaves the board — landing in the derived inventory when active — and
the placed item is not duplicated); slot to slot swaps the two slot
contents (j empty included); slot to inventory clears the source slot;
inventory to inventory leaves the state unchanged. -/
theorem executeMove_case_table (st : GameState)
    (hst : st.gameStatus = GameStatus.playing) :
    (∀ (x : BrandId) (j : Nat), j < st.currentSlots.length →
      (executeMove st DragSource.inventory x none DragSource.slot
          (some j)).currentSlots = st.currentSlots.set j (some x) ∧
      (¬ some x ∈ st.currentSlots →
        (executeMove st DragSource.inventory x none DragSource.slot
            (some j)).currentSlots.count (some x) = 1 ∧
        (∀ y : BrandId, st.currentSlots.getD j none = some y →
          (∀ b : BrandId, st.currentSlots.count (some b) ≤ 1) →
          (¬ some y ∈ (executeMove st DragSource.inventory x none DragSource.slot
              (some j)).currentSlots ∧
            (y ∈ (activeBrands st).map (fun b => b.id) →
              y ∈ inventoryIds (executeMove st DragSource.inventory x none
                DragSource.slot (some j))))))) ∧
    (∀ (x : BrandId) (i j : Nat), j < st.currentSlots.length →
      st.currentSlots.getD i none = some x →
      ((executeMove st DragSource.slot x (some i) DragSource.slot
          (some j)).currentSlots.getD j none = some x ∧
        (executeMove st DragSource.slot x (some i) DragSource.slot
          (some j)).currentSlots.getD i none = st.currentSlots.getD j none ∧
        (∀ k, k ≠ i → k ≠ j →
          (executeMove st DragSource.slot x (some i) DragSource.slot
            (some j)).currentSlots.getD k none = st.currentSlots.getD k none))) ∧
    (∀ (x : BrandId) (i : Nat),
      (executeMove st DragSource.slot x (some i) DragSource.inventory
        none).currentSlots = st.currentSlots.set i none) ∧
    (∀ (x : BrandId) (si ti : Option Nat),
      executeMove st DragSource.inventory x si DragSource.inventory ti = st) := by
  refine ⟨?_, ?_, fun x i => rfl, fun x si ti => rfl⟩
  · intro x j hj
    refine ⟨rfl, ?_⟩
    intro hx
    have hred : (executeMove st DragSource.inventory x none DragSource.slot
        (some j)).currentSlots = st.currentSlots.set j (some x) := rfl
    have hcx : st.currentSlots.count (some x) = 0 := List.count_eq_zero.mpr hx
    have hjx : st.currentSlots[j] ≠ some x := fun h => hx (h ▸ List.getElem_mem hj)
    constructor
    · rw [hred]
      have heq := count_set_add st.currentSlots j (some x) (some x) hj
      rw [if_neg hjx, if_pos rfl] at heq
      omega
    · intro y hy hinv
      have hjy : st.currentSlots[j] = some y := by
        rw [← getD_none_eq_getElem hj]
        exact hy
      have hxy : x ≠ y := by
        intro h
        subst h
        exact hjx hjy
      have hcy : (st.currentSlots.set j (some x)).count (some y) = 0 := by
        have heq := count_set_add st.currentSlots j (some x) (some y) hj
        have hb := hinv y
        rw [if_pos hjy, if_neg (fun h => hxy (Option.some.inj h))] at heq
        omega
      have hny : ¬ some y ∈ (executeMove st DragSource.inventory x none
          DragSource.slot (some j)).currentSlots := by
        rw [hred]
        exact List.count_eq_zero.mp hcy
      refine ⟨hny, ?_⟩
      intro hyact
      exact mem_inventoryIds_of _ y hyact hny
  · intro x i j hj hi'
    have hi : i < st.currentSlots.length := lt_of_getD_eq_some hi'
    have hxi : st.currentSlots[i] = some x := by
      rw [← getD_none_eq_getElem hi]
      exact hi'
    have hred : (executeMove st DragSource.slot x (some i) DragSource.slot
        (some j)).currentSlots =
        (st.currentSlots.set j (some x)).set i (st.currentSlots.getD j none) := rfl
    have hi2 : i < ((st.currentSlots.set j (some x)).set i
        (st.currentSlots.getD j none)).length := by simpa using hi
    have hj2 : j < ((st.currentSlots.set j (some x)).set i
        (st.currentSlots.getD j none)).length := by simpa using hj
    refine ⟨?_, ?_, ?_⟩
    · rw [hred, getD_none_eq_getElem hj2]
      by_cases hij : i = j
      · subst hij
        rw [List.getElem_set_self]
        rw [getD_none_eq_getElem hi, hxi]
      · rw [List.getElem_set_ne hij, List.getElem_set_self]
    · rw [hred, getD_none_eq_getElem hi2, List.getElem_set_self]
    · intro k hki hkj
      by_cases hk : k < st.currentSlots.length
      · have hk2 : k < ((st.currentSlots.set j (some x)).set i
            (st.currentSlots.getD j none)).length := by simpa using hk
        rw [hred, getD_none_eq_getElem hk2, getD_none_eq_getElem hk,
          List.getElem_set_ne (fun h => hki h.symm),
          List.getElem_set_ne (fun h => hkj h.symm)]
      · have hk' : st.currentSlots.length ≤ k := Nat.le_of_not_lt hk
        rw [hred, getD_none_of_le (by simpa using hk'), getD_none_of_le hk']

/-- Witness for C2 at the sample playing state. -/
theorem executeMove_case_table_witness :
    demoState.gameStatus = GameStatus.playing ∧
    (executeMove demoState DragSource.inventory BrandId.water none DragSource.slot
      (some 0)).currentSlots = demoState.currentSlots.set 0 (some BrandId.water) ∧
    executeMove demoState DragSource.inventory BrandId.water none DragSource.inventory
      none = demoState :=
  ⟨rfl,
   ((executeMove_case_table demoState rfl).1 BrandId.water 0 (by decide)).1,
   (executeMove_case_table demoState rfl).2.2.2 BrandId.water none none⟩

lemma executeMove_preserves_nodup (st : GameState) (m : MoveDesc)
    (hwf : wfMove st m = true)
    (hinv : ∀ b : BrandId, st.currentSlots.count (some b) ≤ 1) :
    ∀ b : BrandId, (execMoveDesc st m).currentSlots.count (some b) ≤ 1 := by
  obtain ⟨s, x, si, t, ti⟩ := m
  cases t with
  | slot =>
    cases ti with
    | none =>
      simp [wfMove] at hwf
    | some j =>
      cases s with
      | inventory =>
        simp only [wfMove, Bool.and_eq_true, Bool.not_eq_true', decide_eq_false_iff_not,
          decide_eq_true_eq] at hwf
        obtain ⟨hx, hj⟩ := hwf
        intro b
        have hred : (execMoveDesc st
            ⟨DragSource.inventory, x, si, DragSource.slot, some j⟩).currentSlots =
            st.currentSlots.set j (some x) := rfl
        rw [hred]
        have heq := count_set_add st.currentSlots j (some x) (some b) hj
        have hcx : st.currentSlots.count (some x) = 0 := List.count_eq_zero.mpr hx
        have hb := hinv b
        by_cases h2 : some x = some b
        · have hcb : st.currentSlots.count (some b) = 0 := by
            rw [h2] at hcx
            exact hcx
          rw [if_pos h2] at heq
          by_cases h1 : st.currentSlots[j] = some b
          · rw [if_pos h1] at heq
            omega
          · rw [if_neg h1] at heq
            omega
        · rw [if_neg h2] at heq
          by_cases h1 : st.currentSlots[j] = some b
          · rw [if_pos h1] at heq
            omega
          · rw [if_neg h1] at heq
            omega
      | slot =>
        cases si with
        | none =>
          simp [wfMove] at hwf
        | some i =>
          simp only [wfMove, Bool.and_eq_true, decide_eq_true_eq] at hwf
          obtain ⟨hx, hj⟩ := hwf
          have hi : i < st.currentSlots.length := lt_of_getD_eq_some hx
          have hxi : st.currentSlots[i] = some x := by
            rw [← getD_none_eq_getElem hi]
            exact hx
          intro b
          have hred : (execMoveDesc st
              ⟨DragSource.slot, x, some i, DragSource.slot, some j⟩).currentSlots =
              (st.currentSlots.set j (some x)).set i (st.currentSlots.getD j none) := rfl
          rw [hred]
          have hi2 : i < (st.currentSlots.set j (some x)).length := by simpa using hi
          have heq1 := count_set_add (st.currentSlots.set j (some x)) i
            (st.currentSlots.getD j none) (some b) hi2
          have heq2 := count_set_add st.currentSlots j (some x) (some b) hj
          have hv1 : (st.currentSlots.set j (some x))[i] = some x := by
            by_cases hij : i = j
            · subst hij
              rw [List.getElem_set_self]
            · rw [List.getElem_set_ne (fun h => hij h.symm)]
              exact hxi
          rw [hv1] at heq1
          have hb := hinv b
          by_cases h1 : some x = some b
          · rw [if_pos h1] at heq1 heq2
            by_cases h2 : st.currentSlots[j] = some b
            · have h2' : st.currentSlots.getD j none = some b := by
                rw [getD_none_eq_getElem hj]
                exact h2
              rw [if_pos h2'] at heq1
              rw [if_pos h2] at heq2
              omega
            · have h2' : ¬ st.currentSlots.getD j none = some b := by
                rw [getD_none_eq_getElem hj]
                exact h2
              rw [if_neg h2'] at heq1
              rw [if_neg h2] at heq2
              omega
          · rw [if_neg h1] at heq1 heq2
            by_cases h2 : st.currentSlots[j] = some b
            · have h2' : st.currentSlots.getD j none = some b := by
                rw [getD_none_eq_getElem hj]
                exact h2
              rw [if_pos h2'] at heq1
              rw [if_pos h2] at heq2
              omega
            · have h2' : ¬ st.currentSlots.getD j none = some b := by
                rw [getD_none_eq_getElem hj]
                exact h2
              rw [if_neg h2'] at heq1
              rw [if_neg h2] at heq2
              omega
  | inventory =>
    cases s with
    | inventory =>
      intro b
      exact hinv b
    | slot =>
      cases si with
      | none =>
        intro b
        exact hinv b
      | some i =>
        simp only [wfMove, Bool.and_eq_true, decide_eq_true_eq] at hwf
        have hx : st.currentSlots.getD i none = some x := hwf.1
        have hi : i < st.currentSlots.length := lt_of_getD_eq_some hx
        intro b
        have hred : (execMoveDesc st
            ⟨DragSource.slot, x, some i, DragSource.inventory, ti⟩).currentSlots =
            st.currentSlots.set i none := rfl
        rw [hred]
        have heq := count_set_add st.currentSlots i none (some b) hi
        have hb := hinv b
        have hnone : (none : Option BrandId) ≠ some b := by simp
        rw [if_neg hnone] at heq
        by_cases h1 : st.currentSlots[i] = some b
        · rw [if_pos h1] at heq
          omega
        · rw [if_neg h1] at heq
          omega

lemma applyMoves_preserves_nodup : ∀ (ms : List MoveDesc) (st : GameState),
    wfMoves st ms = true →
    (∀ b : BrandId, st.currentSlots.count (some b) ≤ 1) →
    ∀ b : BrandId, (applyMoves st ms).currentSlots.count (some b) ≤ 1
  | [], _, _, hinv => hinv
  | m :: ms, st, hwf, hinv => by
    have h1 : wfMove st m = true ∧ wfMoves (execMoveDesc st m) ms = true := by
      simpa [wfMoves, Bool.and_eq_true] using hwf
    exact applyMoves_preserves_nodup ms (execMoveDesc st m) h1.2
      (executeMove_preserves_nodup st m h1.1 hinv)

lemma availableInventory_eq_active_minus_board (st : GameState) :
    availableInventory st = (activeBrands st).filter
      (fun brand => !decide (brand.id ∈ st.currentSlots.filterMap id)) := by
  unfold availableInventory
  apply List.filter_congr
  intro b _
  have hiff : (some b.id ∈ st.currentSlots) ↔ (b.id ∈ st.currentSlots.filterMap id) := by
    simp [List.mem_filterMap]
  have hd : decide (some b.id ∈ st.currentSlots) =
      decide (b.id ∈ st.currentSlots.filterMap id) := decide_eq_decide.mpr hiff
  rw [hd]

/-- C3: starting from the all-empty board, after any sequence of moves
whose source data comes from the current board or derived inventory (as
the input adapters supply it), no item id occupies two slots at once,
and the derived inventory equals the active item set minus the set of
non-empty slot values. -/
theorem board_invariant_after_moves (st0 : GameState) (ms : List MoveDesc)
    (h0 : ∀ s ∈ st0.currentSlots, s = none)
    (hwf : wfMoves st0 ms = true) :
    (∀ b : BrandId, (applyMoves st0 ms).currentSlots.count (some b) ≤ 1) ∧
    availableInventory (applyMoves st0 ms) =
      (activeBrands (applyMoves st0 ms)).filter
        (fun brand => !decide (brand.id ∈ (applyMoves st0 ms).currentSlots.filterMap id)) :=
  ⟨applyMoves_preserves_nodup ms st0 hwf (fun b => by
      have hmem : some b ∉ st0.currentSlots := fun hm => by simpa using h0 _ hm
      rw [List.count_eq_zero.mpr hmem]
      omega),
    availableInventory_eq_active_minus_board _⟩

/-- Witness for C3: a concrete two-move adapter trace from the empty
board. -/
theorem board_invariant_after_moves_witness :
    (∀ s ∈ demoEmptyState.currentSlots, s = none) ∧
    wfMoves demoEmptyState demoMoves = true ∧
    (∀ b : BrandId, (applyMoves demoEmptyState demoMoves).currentSlots.count (some b) ≤ 1) :=
  ⟨by decide, by decide,
    (board_invariant_after_moves demoEmptyState demoMoves (by decide) (by decide)).1⟩

/-- Refutation of C6 as stated: confirming on a board with one prior
entry stores the new entry at the HEAD of the log, not appended at the
end. -/
theorem history_append_at_end_refuted :
    (checkSolution 7 demoStateWithHistory).history =
      [{ id := toString 7, arrangement := [BrandId.lime, BrandId.cola],
         correctCount := 0, timestamp := 7 }, demoHistoryEntry] ∧
    (checkSolution 7 demoStateWithHistory).history ≠
      demoStateWithHistory.history ++
        [{ id := toString 7, arrangement := [BrandId.lime, BrandId.cola],
           correctCount := 0, timestamp := 7 }] := by
  constructor
  · decide
  · decide

/-- C6 (amended): each confirmed attempt PREPENDS its entry to the
stored log, so the stored order is reverse-chronological (newest
first); the panel renders the stored order directly and only the
printed attempt number is computed by the length-minus-index
reversal. -/
theorem checkSolution_prepends_history (now : Nat) (st : GameState)
    (h : ¬ none ∈ st.currentSlots) :
    (checkSolution now st).history =
      { id := toString now, arrangement := st.currentSlots.filterMap id,
        correctCount := countMatches (st.currentSlots.filterMap id) st.targetSequence,
        timestamp := now } :: st.history ∧
    (∀ idx : Nat, displayedAttemptNumber (checkSolution now st).history idx =
      (checkSolution now st).history.length - 1 - idx) := by
  constructor
  · unfold checkSolution
    by_cases h2 : countMatches (st.currentSlots.filterMap id) st.targetSequence = st.gameSize
    · simp [h, h2]
    · simp [h, h2]
  · intro idx
    rfl

/-- Witness for the amended C6 at a concrete confirm. -/
theorem checkSolution_prepends_history_witness :
    ¬ none ∈ demoStateWithHistory.currentSlots ∧
    (checkSolution 7 demoStateWithHistory).history =
      { id := toString 7, arrangement := demoStateWithHistory.currentSlots.filterMap id,
        correctCount := countMatches (demoStateWithHistory.currentSlots.filterMap id)
          demoStateWithHistory.targetSequence,
        timestamp := 7 } :: demoStateWithHistory.history :=
  ⟨by decide, (checkSolution_prepends_history 7 demoStateWithHistory (by decide)).1⟩

/-- Refutation of C9 as stated: a touch drag armed while playing is
still executed at release after the game has been won — the board
changes although the move request is delivered while the status is not
playing. -/
theorem move_ignored_not_playing_refuted :
    handleTouchStart demoOneState none DragSource.slot BrandId.cola (some 0) =
      some touchDemoItem ∧
    (checkSolution 3 demoOneState).gameStatus = GameStatus.won ∧
    (handleTouchEnd (checkSolution 3 demoOneState) (some touchDemoItem)
        (some TouchDropZone.inventory)).1.currentSlots ≠
      (checkSolution 3 demoOneState).currentSlots := by
  refine ⟨by decide, by decide, by decide⟩

/-- C9 (amended): pointer-drag moves delivered while the game status is
not playing are silently ignored with the state unchanged, and the
touch path is gated at drag start: touching a can while not playing
leaves the drag state unarmed, and a release with no armed drag is a
no-op — but a drag armed while playing is still executed at release
even if the status changed meanwhile. -/
theorem moves_ignored_when_not_playing (st : GameState) (ts : Option TouchDragItem)
    (s : DragSource) (b : BrandId) (si : Option Nat) (ti : Nat)
    (zone : Option TouchDropZone)
    (h : st.gameStatus ≠ GameStatus.playing) :
    handleDropOnSlot st s b si ti = st ∧
    handleDropOnInventory st s b si = st ∧
    handleTouchStart st ts s b si = ts ∧
    handleTouchEnd st none zone = (st, none) := by
  refine ⟨?_, ?_, ?_, rfl⟩
  · unfold handleDropOnSlot
    rw [if_pos h]
  · unfold handleDropOnInventory
    rw [if_pos h]
  · unfold handleTouchStart
    rw [if_pos h]

/-- Witness for the amended C9 at a concrete won state. -/
theorem moves_ignored_when_not_playing_witness :
    ({ demoState with gameStatus := GameStatus.won } : GameState).gameStatus ≠
      GameStatus.playing ∧
    handleDropOnSlot { demoState with gameStatus := GameStatus.won } DragSource.inventory
      BrandId.cola none 0 = { demoState with gameStatus := GameStatus.won } :=
  ⟨by decide,
   (moves_ignored_when_not_playing { demoState with gameStatus := GameStatus.won } none
     DragSource.inventory BrandId.cola none 0 none (by decide)).1⟩

end SodaSort
